import Mathlib

/-!
Verification of the rust-calculator repository: a shallow embedding of
`src/calculator/calculator.rs` and `src/calculator/evaluator.rs` in Lean 4,
with theorems settling the specification claims about tokens, postfix
detection and evaluation, infix evaluation, affine (linear) reduction,
equation solving, the orchestrator, and result rounding.

Numbers: the Rust code computes over `f64`; the embedding models numeric
values as exact rationals (`ℚ`), with `f64::round` modelled as
round-half-away-from-zero.  All structural behaviour (branching on `== 0.0`,
error selection, stack discipline) is transcribed verbatim.
-/

namespace RustCalculator

/-- Transcribed from `Token` (spec section 3; the token module itself is not
under `src/`, its shape is fixed by the spec data model and by every match in
`calculator.rs` and `evaluator.rs`). -/
inductive Token where
  | Number (value : ℚ)
  | Variable (name : String)
  | Plus
  | Minus
  | Multiply
  | Divide
  | LeftParenthesis
  | RightParenthesis
  | Equal
deriving DecidableEq, Repr

/-- Transcribed from `Operator` in the AST module (spec section 3). -/
inductive Operator where
  | Add
  | Sub
  | Mul
  | Div
deriving DecidableEq, Repr

/-- Transcribed from `AST` (spec section 3): `Num` leaf, `Var` leaf, binary
node with two owned children. -/
inductive AST where
  | Num (value : ℚ)
  | Var (name : String)
  | BinOp (lhs : AST) (op : Operator) (rhs : AST)
deriving DecidableEq, Repr

/-- Transcribed from `CalculatorError` in `calculator.rs` lines 7-18. -/
inductive CalculatorError where
  | DivisionByZero
  | ParseError
  | UnexpectedToken
  | InvalidExpression
  | MultipleVariables
  | EmptyExpression
  | ExtraTokensDetected
  | UnmatchedRightParenthesis
  | UnmatchedLeftParenthesis
deriving DecidableEq, Repr

/-- Transcribed from `extract_coefficients_and_constants` in `evaluator.rs`
lines 6-38: reduce an AST to an affine pair `(coefficient, constant)` over
the single variable, failing on non-linear shapes. -/
def extract_coefficients_and_constants : AST → Except CalculatorError (ℚ × ℚ)
  | AST.Num n => Except.ok (0, n)
  | AST.Var _ => Except.ok (1, 0)
  | AST.BinOp lhs op rhs =>
    match extract_coefficients_and_constants lhs with
    | Except.error e => Except.error e
    | Except.ok (lhs_coeff, lhs_const) =>
      match extract_coefficients_and_constants rhs with
      | Except.error e => Except.error e
      | Except.ok (rhs_coeff, rhs_const) =>
        match op with
        | Operator.Add => Except.ok (lhs_coeff + rhs_coeff, lhs_const + rhs_const)
        | Operator.Sub => Except.ok (lhs_coeff - rhs_coeff, lhs_const - rhs_const)
        | Operator.Mul =>
          if lhs_coeff = 0 then
            Except.ok (rhs_coeff * lhs_const, rhs_const * lhs_const)
          else if rhs_coeff = 0 then
            Except.ok (lhs_coeff * rhs_const, lhs_const * rhs_const)
          else
            Except.error CalculatorError.InvalidExpression
        | Operator.Div =>
          if rhs_coeff ≠ 0 then
            Except.error CalculatorError.InvalidExpression
          else if rhs_const = 0 then
            Except.error CalculatorError.DivisionByZero
          else
            Except.ok (lhs_coeff / rhs_const, lhs_const / rhs_const)

/-- Transcribed from `evaluate_infix` in `evaluator.rs` lines 64-85: post-order
walk; a bare variable is illegal; division by an exact zero fails. -/
def evaluate_infix : AST → Except CalculatorError ℚ
  | AST.Num n => Except.ok n
  | AST.Var _ => Except.error CalculatorError.InvalidExpression
  | AST.BinOp lhs op rhs =>
    match evaluate_infix lhs with
    | Except.error e => Except.error e
    | Except.ok lhs_val =>
      match evaluate_infix rhs with
      | Except.error e => Except.error e
      | Except.ok rhs_val =>
        match op with
        | Operator.Add => Except.ok (lhs_val + rhs_val)
        | Operator.Sub => Except.ok (lhs_val - rhs_val)
        | Operator.Mul => Except.ok (lhs_val * rhs_val)
        | Operator.Div =>
          if rhs_val = 0 then Except.error CalculatorError.DivisionByZero
          else Except.ok (lhs_val / rhs_val)

/-- Transcribed from the loop body and final check of `evaluate_postfix` in
`evaluator.rs` lines 87-122.  The Rust `Vec` stack has its top at the end;
here the stack is a list with its top at the head, so `pop` is head removal
and the right-hand operand is popped first. -/
def evaluatePostfixGo : List Token → List ℚ → Except CalculatorError ℚ
  | [], stack =>
    match stack with
    | [v] => Except.ok v
    | _ => Except.error CalculatorError.InvalidExpression
  | t :: rest, stack =>
    match t with
    | Token.Number n => evaluatePostfixGo rest (n :: stack)
    | Token.Plus =>
      match stack with
      | rhs :: lhs :: s => evaluatePostfixGo rest ((lhs + rhs) :: s)
      | _ => Except.error CalculatorError.InvalidExpression
    | Token.Minus =>
      match stack with
      | rhs :: lhs :: s => evaluatePostfixGo rest ((lhs - rhs) :: s)
      | _ => Except.error CalculatorError.InvalidExpression
    | Token.Multiply =>
      match stack with
      | rhs :: lhs :: s => evaluatePostfixGo rest ((lhs * rhs) :: s)
      | _ => Except.error CalculatorError.InvalidExpression
    | Token.Divide =>
      match stack with
      | rhs :: lhs :: s =>
        if rhs = 0 then Except.error CalculatorError.DivisionByZero
        else evaluatePostfixGo rest ((lhs / rhs) :: s)
      | _ => Except.error CalculatorError.InvalidExpression
    | _ => Except.error CalculatorError.UnexpectedToken

/-- Transcribed from `evaluate_postfix` in `evaluator.rs` lines 87-122: run
the stack machine from an empty stack. -/
def evaluate_postfix (tokens : List Token) : Except CalculatorError ℚ :=
  evaluatePostfixGo tokens []

mutual

/-- Modelled from the spec: the recursive-descent parser of spec section 4.3
(`parser.rs` is not under `src/`).  Grammar, left-associative:
`expression := term ((+|-) term)*`, `term := factor ((*|/) factor)*`,
`factor := Number | Variable | ( expression )`.  `parse_expression` parses one
expression and returns the remaining unconsumed tokens.  An unmatched opening
parenthesis fails with `UnmatchedLeftParenthesis`, a closing parenthesis with
no open context fails with `UnmatchedRightParenthesis`, an empty factor
position fails with `EmptyExpression` on empty input and `ParseError`
otherwise.  Recursion is by a fuel parameter, decremented at each nested call;
the exported entry points supply fuel ample for their token count. -/
def parseFactorFuel : Nat → List Token → Except CalculatorError (AST × List Token)
  | 0, _ => Except.error CalculatorError.ParseError
  | fuel + 1, ts =>
    match ts with
    | [] => Except.error CalculatorError.EmptyExpression
    | Token.Number n :: rest => Except.ok (AST.Num n, rest)
    | Token.Variable s :: rest => Except.ok (AST.Var s, rest)
    | Token.LeftParenthesis :: rest =>
      match parseExpressionFuel fuel rest with
      | Except.error e => Except.error e
      | Except.ok (inner, rest') =>
        match rest' with
        | Token.RightParenthesis :: rest'' => Except.ok (inner, rest'')
        | _ => Except.error CalculatorError.UnmatchedLeftParenthesis
    | Token.RightParenthesis :: _ => Except.error CalculatorError.UnmatchedRightParenthesis
    | _ => Except.error CalculatorError.ParseError

/-- Modelled from the spec: the `term` production loop of section 4.3 (see
`parseFactorFuel`). -/
def parseTermLoop : Nat → AST → List Token → Except CalculatorError (AST × List Token)
  | 0, _, _ => Except.error CalculatorError.ParseError
  | fuel + 1, acc, ts =>
    match ts with
    | Token.Multiply :: rest =>
      match parseFactorFuel fuel rest with
      | Except.error e => Except.error e
      | Except.ok (f, rest') => parseTermLoop fuel (AST.BinOp acc Operator.Mul f) rest'
    | Token.Divide :: rest =>
      match parseFactorFuel fuel rest with
      | Except.error e => Except.error e
      | Except.ok (f, rest') => parseTermLoop fuel (AST.BinOp acc Operator.Div f) rest'
    | _ => Except.ok (acc, ts)

/-- Modelled from the spec: the `term` production of section 4.3 (see
`parseFactorFuel`). -/
def parseTermFuel : Nat → List Token → Except CalculatorError (AST × List Token)
  | 0, _ => Except.error CalculatorError.ParseError
  | fuel + 1, ts =>
    match parseFactorFuel fuel ts with
    | Except.error e => Except.error e
    | Except.ok (f, rest) => parseTermLoop fuel f rest

/-- Modelled from the spec: the `expression` production loop of section 4.3
(see `parseFactorFuel`). -/
def parseExpressionLoop : Nat → AST → List Token → Except CalculatorError (AST × List Token)
  | 0, _, _ => Except.error CalculatorError.ParseError
  | fuel + 1, acc, ts =>
    match ts with
    | Token.Plus :: rest =>
      match parseTermFuel fuel rest with
      | Except.error e => Except.error e
      | Except.ok (t, rest') => parseExpressionLoop fuel (AST.BinOp acc Operator.Add t) rest'
    | Token.Minus :: rest =>
      match parseTermFuel fuel rest with
      | Except.error e => Except.error e
      | Except.ok (t, rest') => parseExpressionLoop fuel (AST.BinOp acc Operator.Sub t) rest'
    | _ => Except.ok (acc, ts)

/-- Modelled from the spec: the `expression` production of section 4.3 (see
`parseFactorFuel`). -/
def parseExpressionFuel : Nat → List Token → Except CalculatorError (AST × List Token)
  | 0, _ => Except.error CalculatorError.ParseError
  | fuel + 1, ts =>
    match parseTermFuel fuel ts with
    | Except.error e => Except.error e
    | Except.ok (t, rest) => parseExpressionLoop fuel t rest

end

/-- Modelled from the spec: `parse_expression`, the section 4.3 entry point
that parses one expression and returns it with the remaining unconsumed
tokens (`parser.rs` is not under `src/`). -/
def parse_expression (tokens : List Token) : Except CalculatorError (AST × List Token) :=
  parseExpressionFuel (3 * tokens.length + 3) tokens

/-- Modelled from the spec: `parse`, the wrapper of section 4.3 that
additionally fails with `ExtraTokensDetected` if tokens remain after a
complete expression (`parser.rs` is not under `src/`). -/
def parse (tokens : List Token) : Except CalculatorError (AST × List Token) :=
  match parse_expression tokens with
  | Except.error e => Except.error e
  | Except.ok (ast, rest) =>
    match rest with
    | [] => Except.ok (ast, [])
    | _ => Except.error CalculatorError.ExtraTokensDetected

/-- Transcribed from `solve_equation` in `evaluator.rs` lines 40-61: find the
first `Equal`, split there, parse each side with `parse_expression`
(discarding the leftover tokens), reduce both sides to affine pairs, combine
into `a * x = b` and solve. -/
def solve_equation (tokens : List Token) : Except CalculatorError ℚ :=
  match List.findIdx? (fun t => t = Token.Equal) tokens with
  | none => Except.error CalculatorError.ParseError
  | some equal_pos =>
    let left_tokens := tokens.take equal_pos
    let right_tokens := tokens.drop (equal_pos + 1)
    match parse_expression left_tokens with
    | Except.error e => Except.error e
    | Except.ok (left_ast, _) =>
      match parse_expression right_tokens with
      | Except.error e => Except.error e
      | Except.ok (right_ast, _) =>
        match extract_coefficients_and_constants left_ast with
        | Except.error e => Except.error e
        | Except.ok (left_coefficient, left_constant) =>
          match extract_coefficients_and_constants right_ast with
          | Except.error e => Except.error e
          | Except.ok (right_coefficient, right_constant) =>
            let a := left_coefficient - right_coefficient
            let b := right_constant - left_constant
            if a = 0 then Except.error CalculatorError.InvalidExpression
            else Except.ok (b / a)

/-- Models Rust `f64::round`: round half away from zero, as an integer. -/
def roundHalfAwayFromZero (q : ℚ) : ℤ :=
  if 0 ≤ q then ⌊q + 1 / 2⌋ else ⌈q - 1 / 2⌉

/-- Transcribed from `round_result` in `calculator.rs` lines 57-59: multiply
by 1e8, round to the nearest integer (`f64::round`, half away from zero),
divide by 1e8. -/
def round_result (result : ℚ) : ℚ :=
  (roundHalfAwayFromZero (result * 100000000) : ℚ) / 100000000

/-- The `Token::Plus | Token::Minus | Token::Multiply | Token::Divide` match
alternative of `calculator.rs` and `evaluator.rs`, as a predicate. -/
def isArithmeticOperator : Token → Bool
  | Token.Plus | Token.Minus | Token.Multiply | Token.Divide => true
  | _ => false

/-- The `Token::Number(_)` match alternative, as a predicate. -/
def isNumberToken : Token → Bool
  | Token.Number _ => true
  | _ => false

/-- Transcribed from `is_postfix_expression` in `calculator.rs` line 63: a
parenthesis or `Equal` token occurs somewhere in the sequence. -/
def containsParenthesisOrEqual (tokens : List Token) : Bool :=
  tokens.any (fun t =>
    match t with
    | Token.LeftParenthesis | Token.RightParenthesis | Token.Equal => true
    | _ => false)

/-- Transcribed from the scan loop of `is_postfix_expression` in
`calculator.rs` lines 68-89: running counts of numbers and operators (the
Rust counters are machine integers; their difference is modelled in `ℤ`),
plus the was-the-previous-token-a-number flag.  The three Rust match arms
(`Number(_)`, the four operators, catch-all) are rendered through the
predicates above. -/
def postfixScan : List Token → Bool → ℤ → ℤ → Bool
  | [], _, _, _ => false
  | t :: rest, last_was_number, number_count, operator_count =>
    if isNumberToken t then
      postfixScan rest true (number_count + 1) operator_count
    else if isArithmeticOperator t then
      (if last_was_number ∧ number_count - (operator_count + 1) = 1 then true
       else postfixScan rest false number_count (operator_count + 1))
    else
      postfixScan rest false number_count operator_count

/-- Transcribed from `is_postfix_expression` in `calculator.rs` lines 61-90:
false at once when a parenthesis or `Equal` is present, else the scan. -/
def is_postfix_expression (tokens : List Token) : Bool :=
  if containsParenthesisOrEqual tokens then false
  else postfixScan tokens false 0 0

/-- Transcribed from the variable-uniqueness loop of `process_expression` in
`calculator.rs` lines 27-37: the first `Variable` establishes the name, any
later `Variable` with a different name fails with `MultipleVariables`. -/
def scanVariables : List Token → Option String → Except CalculatorError (Option String)
  | [], seen_variable => Except.ok seen_variable
  | t :: rest, seen_variable =>
    match t with
    | Token.Variable name =>
      match seen_variable with
      | none => scanVariables rest (some name)
      | some seen_name =>
        if seen_name = name then scanVariables rest (some seen_name)
        else Except.error CalculatorError.MultipleVariables
    | _ => scanVariables rest seen_variable

/-- The structured output of the orchestrator: the Rust code formats either
`"name=value"` for an equation or the bare value; float-to-text conversion is
abstracted, the rounded numeric payload is kept. -/
inductive ProcessOutput where
  | equation (name : String) (value : ℚ)
  | plain (value : ℚ)
deriving DecidableEq, Repr

/-- Transcribed from `process_expression` in `calculator.rs` lines 19-55,
minus the lexer (not under `src/`): the token sequence is the input.  Empty
check, single pass scanning for a conflicting variable name, then path
selection: equation solving when a variable and an `Equal` are both present,
otherwise postfix or infix evaluation, the result rounded. -/
def process_expression (tokens : List Token) : Except CalculatorError ProcessOutput :=
  if tokens.isEmpty then Except.error CalculatorError.EmptyExpression
  else
    let contains_equal := tokens.any (fun t => t = Token.Equal)
    match scanVariables tokens none with
    | Except.error e => Except.error e
    | Except.ok seen_variable =>
      match seen_variable, contains_equal with
      | some variable_name, true =>
        match solve_equation tokens with
        | Except.error e => Except.error e
        | Except.ok result =>
          Except.ok (ProcessOutput.equation variable_name (round_result result))
      | _, _ =>
        if is_postfix_expression tokens then
          match evaluate_postfix tokens with
          | Except.error e => Except.error e
          | Except.ok result => Except.ok (ProcessOutput.plain (round_result result))
        else
          match parse tokens with
          | Except.error e => Except.error e
          | Except.ok (ast, _) =>
            match evaluate_infix ast with
            | Except.error e => Except.error e
            | Except.ok result => Except.ok (ProcessOutput.plain (round_result result))

/-! ## Theorems -/

/-- Claim C3: during affine reduction of an AST, a `Mul` node is legal only if
at least one operand's pair has zero coefficient; in that case the other
operand's coefficient and constant are each scaled by the constant operand's
constant value, and if both operands have non-zero coefficient the reduction
fails with `InvalidExpression`. -/
theorem claim_c3 (l r : AST) (lc lk rc rk : ℚ)
    (hl : extract_coefficients_and_constants l = Except.ok (lc, lk))
    (hr : extract_coefficients_and_constants r = Except.ok (rc, rk)) :
    (lc = 0 → extract_coefficients_and_constants (AST.BinOp l Operator.Mul r)
        = Except.ok (rc * lk, rk * lk)) ∧
    (rc = 0 → extract_coefficients_and_constants (AST.BinOp l Operator.Mul r)
        = Except.ok (lc * rk, lk * rk)) ∧
    (lc ≠ 0 → rc ≠ 0 → extract_coefficients_and_constants (AST.BinOp l Operator.Mul r)
        = Except.error CalculatorError.InvalidExpression) := by
  refine ⟨fun h0 => ?_, fun h0 => ?_, fun h1 h2 => ?_⟩ <;>
    simp only [extract_coefficients_and_constants, hl, hr]
  · rw [if_pos h0]
  · by_cases hlc : lc = 0
    · rw [if_pos hlc]
      subst h0 hlc
      rw [mul_comm rk lk]
      norm_num
    · rw [if_neg hlc, if_pos h0]
  · rw [if_neg h1, if_neg h2]

/-- Witness for C3 at `(2) * x`: the left operand is the pure constant `2`,
so the pair of `x` is scaled by `2`. -/
theorem claim_c3_witness :
    extract_coefficients_and_constants (AST.BinOp (AST.Num 2) Operator.Mul (AST.Var "x"))
      = Except.ok (2, 0) := by
  have h := (claim_c3 (AST.Num 2) (AST.Var "x") 0 2 1 0 rfl rfl).1 rfl
  norm_num at h
  exact h

/-- Claim C4: during affine reduction of an AST, a `Div` node fails with
`InvalidExpression` whenever the divisor's pair has non-zero coefficient,
fails with `DivisionByZero` when the divisor's coefficient is zero and its
constant is zero, and otherwise returns the dividend's pair with both
components divided by the divisor's constant. -/
theorem claim_c4 (l r : AST) (lc lk rc rk : ℚ)
    (hl : extract_coefficients_and_constants l = Except.ok (lc, lk))
    (hr : extract_coefficients_and_constants r = Except.ok (rc, rk)) :
    (rc ≠ 0 → extract_coefficients_and_constants (AST.BinOp l Operator.Div r)
        = Except.error CalculatorError.InvalidExpression) ∧
    (rc = 0 → rk = 0 → extract_coefficients_and_constants (AST.BinOp l Operator.Div r)
        = Except.error CalculatorError.DivisionByZero) ∧
    (rc = 0 → rk ≠ 0 → extract_coefficients_and_constants (AST.BinOp l Operator.Div r)
        = Except.ok (lc / rk, lk / rk)) := by
  refine ⟨fun h1 => ?_, fun h1 h2 => ?_, fun h1 h2 => ?_⟩ <;>
    simp only [extract_coefficients_and_constants, hl, hr]
  · rw [if_pos h1]
  · rw [if_neg (by simpa using h1), if_pos h2]
  · rw [if_neg (by simpa using h1), if_neg h2]

/-- Witness for C4 at `x / x`: the divisor carries the unknown, so the
division is non-linear and fails with `InvalidExpression`. -/
theorem claim_c4_witness :
    extract_coefficients_and_constants (AST.BinOp (AST.Var "x") Operator.Div (AST.Var "x"))
      = Except.error CalculatorError.InvalidExpression :=
  (claim_c4 (AST.Var "x") (AST.Var "x") 1 0 1 0 rfl rfl).1 one_ne_zero

/-- Claim C5: a division whose right-hand value is exactly `0` fails with
`DivisionByZero` in all three evaluation contexts — infix tree evaluation,
postfix stack evaluation, and affine equation reduction — and no other error
kind is produced for that condition. -/
theorem claim_c5 :
    (∀ (l r : AST) (lv : ℚ), evaluate_infix l = Except.ok lv →
       evaluate_infix r = Except.ok 0 →
       evaluate_infix (AST.BinOp l Operator.Div r)
         = Except.error CalculatorError.DivisionByZero) ∧
    (∀ (rest : List Token) (lhs : ℚ) (s : List ℚ),
       evaluatePostfixGo (Token.Divide :: rest) (0 :: lhs :: s)
         = Except.error CalculatorError.DivisionByZero) ∧
    (∀ (l r : AST) (lc lk : ℚ),
       extract_coefficients_and_constants l = Except.ok (lc, lk) →
       extract_coefficients_and_constants r = Except.ok (0, 0) →
       extract_coefficients_and_constants (AST.BinOp l Operator.Div r)
         = Except.error CalculatorError.DivisionByZero) := by
  refine ⟨fun l r lv hl hr => ?_, fun rest lhs s => ?_, fun l r lc lk hl hr => ?_⟩
  · simp [ evaluate_infix, hl, hr]
  · simp [evaluatePostfixGo]
  · simp only [extract_coefficients_and_constants, hl, hr]
    norm_num

/-- Witness for C5: `2 / 0` in the infix tree, `4 0 /` on the postfix stack,
and a `(1, 2) / (0, 0)` affine division all fail with `DivisionByZero`. -/
theorem claim_c5_witness :
    evaluate_infix (AST.BinOp (AST.Num 2) Operator.Div (AST.Num 0))
      = Except.error CalculatorError.DivisionByZero ∧
    evaluate_postfix [Token.Number 4, Token.Number 0, Token.Divide]
      = Except.error CalculatorError.DivisionByZero ∧
    extract_coefficients_and_constants (AST.BinOp (AST.Var "x") Operator.Div (AST.Num 0))
      = Except.error CalculatorError.DivisionByZero := by
  refine ⟨claim_c5.1 (AST.Num 2) (AST.Num 0) 2 rfl rfl, ?_, ?_⟩
  · exact claim_c5.2.1 ([] : List Token) 4 ([] : List ℚ)
  · exact claim_c5.2.2 (AST.Var "x") (AST.Num 0) 1 0 rfl rfl

/-- For an integer value, rounding half away from zero is the identity. -/
lemma roundHalfAwayFromZero_intCast (n : ℤ) : roundHalfAwayFromZero (n : ℚ) = n := by
  unfold roundHalfAwayFromZero
  split_ifs with h
  · rw [Int.floor_int_add]
    norm_num
  · have h2 : (n : ℚ) - 1 / 2 = (-(1 / 2) : ℚ) + n := by ring
    rw [h2, Int.ceil_add_int]
    norm_num

/-- Claim C10: the final rounding step computes
`round_result x = round (x * 1e8) / 1e8`, and this rounding is idempotent:
rounding an already-rounded value is a no-op. -/
theorem claim_c10 (x : ℚ) : round_result (round_result x) = round_result x := by
  unfold round_result
  have h : ((roundHalfAwayFromZero (x * 100000000) : ℚ) / 100000000) * 100000000
      = (roundHalfAwayFromZero (x * 100000000) : ℚ) := by
    field_simp
  rw [h, roundHalfAwayFromZero_intCast]

/-- Claim C1: for every token sequence containing an `Equal` token whose two
sides reduce to affine pairs `(lc, lk)` and `(rc, rk)`, `solve_equation`
computes `a = lc - rc` and `b = rk - lk`; if `a = 0` it fails with
`InvalidExpression`, and otherwise it returns the solution `b / a`. -/
theorem claim_c1 (tokens : List Token) (equal_pos : ℕ)
    (left_ast right_ast : AST) (lrest rrest : List Token) (lc lk rc rk : ℚ)
    (hfind : List.findIdx? (fun t => t = Token.Equal) tokens = some equal_pos)
    (hl : parse_expression (tokens.take equal_pos) = Except.ok (left_ast, lrest))
    (hr : parse_expression (tokens.drop (equal_pos + 1)) = Except.ok (right_ast, rrest))
    (hcl : extract_coefficients_and_constants left_ast = Except.ok (lc, lk))
    (hcr : extract_coefficients_and_constants right_ast = Except.ok (rc, rk)) :
    solve_equation tokens =
      (if lc - rc = 0 then Except.error CalculatorError.InvalidExpression
       else Except.ok ((rk - lk) / (lc - rc))) := by
  simp only [solve_equation, hfind, hl, hr, hcl, hcr]

/-- Witness for C1 at the tokens of `2 * x + 0.5 = 1`: `a = 2 - 0`,
`b = 1 - 0.5`, solution `0.25`. -/
theorem claim_c1_witness :
    solve_equation [Token.Number 2, Token.Multiply, Token.Variable "x", Token.Plus,
        Token.Number (1 / 2), Token.Equal, Token.Number 1] = Except.ok (1 / 4) := by
  have hcl : extract_coefficients_and_constants
      (AST.BinOp (AST.BinOp (AST.Num 2) Operator.Mul (AST.Var "x")) Operator.Add
        (AST.Num (1 / 2))) = Except.ok (2, 1 / 2) := by
    norm_num [extract_coefficients_and_constants]
  have h := claim_c1 [Token.Number 2, Token.Multiply, Token.Variable "x", Token.Plus,
      Token.Number (1 / 2), Token.Equal, Token.Number 1] 5
    (AST.BinOp (AST.BinOp (AST.Num 2) Operator.Mul (AST.Var "x")) Operator.Add
      (AST.Num (1 / 2))) (AST.Num 1) [] [] 2 (1 / 2) 0 1 rfl rfl rfl hcl rfl
  norm_num at h
  exact h

/-- Counterexample to C2: the left side of `1 2 = x` still has the unconsumed
token `2` after the complete expression `1`, yet `solve_equation` does not
fail with `ExtraTokensDetected`: it silently ignores the leftover and solves
`1 = x`, returning `1`. -/
theorem claim_c2_counterexample :
    parse_expression [Token.Number 1, Token.Number 2]
      = Except.ok (AST.Num 1, [Token.Number 2]) ∧
    solve_equation [Token.Number 1, Token.Number 2, Token.Equal, Token.Variable "x"]
      = Except.ok 1 := by
  constructor
  · rfl
  · have hfind : List.findIdx? (fun t => t = Token.Equal)
        [Token.Number 1, Token.Number 2, Token.Equal, Token.Variable "x"] = some 2 := rfl
    simp only [solve_equation, hfind]
    norm_num [parse_expression, parseExpressionFuel, parseTermFuel, parseTermLoop,
      parseFactorFuel, parseExpressionLoop, extract_coefficients_and_constants]

/-- The affine reduction never produces the `ExtraTokensDetected` error. -/
lemma extract_ne_extraTokens (ast : AST) :
    extract_coefficients_and_constants ast
      ≠ Except.error CalculatorError.ExtraTokensDetected := by
  induction ast with
  | Num n => simp [extract_coefficients_and_constants]
  | Var s => simp [extract_coefficients_and_constants]
  | BinOp l op r ihl ihr =>
    simp only [extract_coefficients_and_constants]
    cases hle : extract_coefficients_and_constants l with
    | error e =>
      simpa [hle] using fun h => ihl (hle.trans (by rw [h]))
    | ok lp =>
      cases he : extract_coefficients_and_constants r with
      | error e =>
        simpa [hle, he] using fun h => ihr (he.trans (by rw [h]))
      | ok rp =>
        obtain ⟨lc, lk⟩ := lp
        obtain ⟨rc, rk⟩ := rp
        cases op <;> simp <;> split_ifs <;> simp

/-- Claim C2 as amended: each side of the first `Equal` is parsed with
`parse_expression`, whose leftover tokens `solve_equation` discards, so an
equation input whose sides parse but leave unconsumed trailing tokens is not
rejected: `solve_equation` never fails with `ExtraTokensDetected` — the
trailing tokens are silently ignored. -/
theorem claim_c2_amended (tokens : List Token) (equal_pos : ℕ)
    (left_ast right_ast : AST) (lrest rrest : List Token)
    (hfind : List.findIdx? (fun t => t = Token.Equal) tokens = some equal_pos)
    (hl : parse_expression (tokens.take equal_pos) = Except.ok (left_ast, lrest))
    (hr : parse_expression (tokens.drop (equal_pos + 1)) = Except.ok (right_ast, rrest)) :
    solve_equation tokens ≠ Except.error CalculatorError.ExtraTokensDetected := by
  simp only [solve_equation, hfind, hl, hr]
  cases hle : extract_coefficients_and_constants left_ast with
  | error e =>
    simpa using fun h => extract_ne_extraTokens left_ast (hle.trans (by rw [h]))
  | ok lp =>
    cases he : extract_coefficients_and_constants right_ast with
    | error e =>
      simpa using fun h => extract_ne_extraTokens right_ast (he.trans (by rw [h]))
    | ok rp =>
      obtain ⟨lc, lk⟩ := lp
      obtain ⟨rc, rk⟩ := rp
      dsimp only
      split_ifs <;> simp

/-- Witness for the amended C2 at `1 2 = x`: the left side leaves the token
`2` unconsumed, and `solve_equation` still does not report
`ExtraTokensDetected`. -/
theorem claim_c2_amended_witness :
    solve_equation [Token.Number 1, Token.Number 2, Token.Equal, Token.Variable "x"]
      ≠ Except.error CalculatorError.ExtraTokensDetected :=
  claim_c2_amended [Token.Number 1, Token.Number 2, Token.Equal, Token.Variable "x"] 2
    (AST.Num 1) (AST.Var "x") [Token.Number 2] [] rfl rfl rfl

/-- Claim C6: `evaluate_postfix` behaves as a single-stack machine.  A
`Number` pushes its value; each of `Plus`, `Minus`, `Multiply`, `Divide`
fails with `InvalidExpression` when fewer than two values are on the stack
and otherwise pops the right-hand operand first (the top of the stack is the
RHS), applies the operator (with the divide-by-zero rule), and pushes the
result; any other token kind fails with `UnexpectedToken`; after consuming
all tokens it returns the sole remaining value, failing with
`InvalidExpression` unless exactly one value remains. -/
theorem claim_c6 :
    (∀ (tokens : List Token), evaluate_postfix tokens = evaluatePostfixGo tokens []) ∧
    (∀ (n : ℚ) (rest : List Token) (stack : List ℚ),
       evaluatePostfixGo (Token.Number n :: rest) stack
         = evaluatePostfixGo rest (n :: stack)) ∧
    (∀ (t : Token), isArithmeticOperator t = true →
       ∀ (rest : List Token) (stack : List ℚ), stack.length < 2 →
         evaluatePostfixGo (t :: rest) stack
           = Except.error CalculatorError.InvalidExpression) ∧
    (∀ (rest : List Token) (rhs lhs : ℚ) (s : List ℚ),
       evaluatePostfixGo (Token.Plus :: rest) (rhs :: lhs :: s)
           = evaluatePostfixGo rest ((lhs + rhs) :: s) ∧
       evaluatePostfixGo (Token.Minus :: rest) (rhs :: lhs :: s)
           = evaluatePostfixGo rest ((lhs - rhs) :: s) ∧
       evaluatePostfixGo (Token.Multiply :: rest) (rhs :: lhs :: s)
           = evaluatePostfixGo rest ((lhs * rhs) :: s) ∧
       evaluatePostfixGo (Token.Divide :: rest) (rhs :: lhs :: s)
           = (if rhs = 0 then Except.error CalculatorError.DivisionByZero
              else evaluatePostfixGo rest ((lhs / rhs) :: s))) ∧
    (∀ (t : Token), isArithmeticOperator t = false → isNumberToken t = false →
       ∀ (rest : List Token) (stack : List ℚ),
         evaluatePostfixGo (t :: rest) stack
           = Except.error CalculatorError.UnexpectedToken) ∧
    (∀ (v : ℚ), evaluatePostfixGo [] [v] = Except.ok v) ∧
    (∀ (stack : List ℚ), stack.length ≠ 1 →
       evaluatePostfixGo [] stack = Except.error CalculatorError.InvalidExpression) := by
  refine ⟨fun tokens => rfl, fun n rest stack => rfl, ?_, ?_, ?_, fun v => rfl, ?_⟩
  · intro t ht rest stack hlen
    match stack, hlen with
    | [], _ =>
      cases t <;> simp_all [isArithmeticOperator, evaluatePostfixGo]
    | [v], _ =>
      cases t <;> simp_all [isArithmeticOperator, evaluatePostfixGo]
    | v :: w :: s, hlen => simp at hlen; omega
  · exact fun rest rhs lhs s => ⟨rfl, rfl, rfl, rfl⟩
  · intro t ht hn rest stack
    cases t <;> simp_all [isArithmeticOperator, isNumberToken, evaluatePostfixGo]
  · intro stack hlen
    match stack, hlen with
    | [], _ => rfl
    | [v], hlen => simp at hlen
    | v :: w :: s, _ => rfl

/-- Witness for C6: the hypothesis-bearing conjuncts instantiated — `Plus` on
a one-element stack underflows, and a `Variable` token in a postfix stream is
`UnexpectedToken`. -/
theorem claim_c6_witness :
    evaluatePostfixGo [Token.Plus] [3] = Except.error CalculatorError.InvalidExpression ∧
    evaluatePostfixGo [Token.Variable "x"] [3, 4]
      = Except.error CalculatorError.UnexpectedToken ∧
    evaluatePostfixGo [] [] = Except.error CalculatorError.InvalidExpression :=
  ⟨claim_c6.2.2.1 Token.Plus rfl [] [3] (by norm_num),
   claim_c6.2.2.2.2.1 (Token.Variable "x") rfl rfl [] [3, 4],
   claim_c6.2.2.2.2.2.2 [] (by norm_num)⟩

/-- Claim C8: postfix and equivalent infix forms agree — the postfix token
sequence `3 4 + 2 *` evaluates to the same value, `14`, as the infix tree of
`(3+4)*2`, and the orchestrator (string rendering abstracted to the rounded
numeric payload) produces `14` on the token sequences of `"3 4 + 2 *"` and
`"(3+4)*2"`. -/
theorem claim_c8 :
    evaluate_postfix [Token.Number 3, Token.Number 4, Token.Plus, Token.Number 2,
        Token.Multiply] = Except.ok 14 ∧
    evaluate_infix (AST.BinOp (AST.BinOp (AST.Num 3) Operator.Add (AST.Num 4))
        Operator.Mul (AST.Num 2)) = Except.ok 14 ∧
    process_expression [Token.Number 3, Token.Number 4, Token.Plus, Token.Number 2,
        Token.Multiply] = Except.ok (ProcessOutput.plain 14) ∧
    process_expression [Token.LeftParenthesis, Token.Number 3, Token.Plus, Token.Number 4,
        Token.RightParenthesis, Token.Multiply, Token.Number 2]
      = Except.ok (ProcessOutput.plain 14) := by
  have hp : parse [Token.LeftParenthesis, Token.Number 3, Token.Plus, Token.Number 4,
      Token.RightParenthesis, Token.Multiply, Token.Number 2]
      = Except.ok (AST.BinOp (AST.BinOp (AST.Num 3) Operator.Add (AST.Num 4))
          Operator.Mul (AST.Num 2), []) := rfl
  refine ⟨?_, ?_, ?_, ?_⟩
  · norm_num [ evaluate_postfix, evaluatePostfixGo]
  · norm_num [ evaluate_infix]
  · norm_num [process_expression, scanVariables, is_postfix_expression,
      containsParenthesisOrEqual, postfixScan, isNumberToken, isArithmeticOperator,
      evaluate_postfix, evaluatePostfixGo, round_result, roundHalfAwayFromZero]
  · norm_num [process_expression, scanVariables, is_postfix_expression,
      containsParenthesisOrEqual, hp, evaluate_infix, round_result, roundHalfAwayFromZero]

/-- Once a variable name is established, any variable token with a different
name somewhere in the remaining tokens makes the scan fail with
`MultipleVariables`. -/
lemma scanVariables_some_conflict (ts : List Token) (name m : String)
    (hm : Token.Variable m ∈ ts) (hne : m ≠ name) :
    scanVariables ts (some name) = Except.error CalculatorError.MultipleVariables := by
  induction ts generalizing name with
  | nil => simp at hm
  | cons t rest ih =>
    rcases List.mem_cons.mp hm with hhead | htail
    · subst hhead
      simp only [scanVariables]
      rw [if_neg (fun h => hne h.symm)]
    · cases t with
      | Variable k =>
        simp only [scanVariables]
        by_cases hk : name = k
        · rw [if_pos hk]
          subst hk
          exact ih name htail hne
        · rw [if_neg hk]
      | Number v => exact ih name htail hne
      | Plus => exact ih name htail hne
      | Minus => exact ih name htail hne
      | Multiply => exact ih name htail hne
      | Divide => exact ih name htail hne
      | LeftParenthesis => exact ih name htail hne
      | RightParenthesis => exact ih name htail hne
      | Equal => exact ih name htail hne

/-- Two variable tokens with distinct names anywhere in the sequence make the
variable scan fail with `MultipleVariables`. -/
lemma scanVariables_none_conflict (ts : List Token) (n1 n2 : String) (hne : n1 ≠ n2)
    (h1 : Token.Variable n1 ∈ ts) (h2 : Token.Variable n2 ∈ ts) :
    scanVariables ts none = Except.error CalculatorError.MultipleVariables := by
  induction ts with
  | nil => simp at h1
  | cons t rest ih =>
    cases t with
    | Variable k =>
      show scanVariables rest (some k) = Except.error CalculatorError.MultipleVariables
      by_cases hk1 : n1 = k
      · have hk2 : n2 ≠ k := fun h => hne (hk1.trans h.symm)
        have : Token.Variable n2 ∈ rest := by
          rcases List.mem_cons.mp h2 with hh | ht
          · exact absurd (by injection hh) hk2
          · exact ht
        exact scanVariables_some_conflict rest k n2 this hk2
      · have : Token.Variable n1 ∈ rest := by
          rcases List.mem_cons.mp h1 with hh | ht
          · exact absurd (by injection hh) hk1
          · exact ht
        exact scanVariables_some_conflict rest k n1 this hk1
    | Number v =>
      exact ih (List.mem_of_ne_of_mem (by simp) h1) (List.mem_of_ne_of_mem (by simp) h2)
    | Plus =>
      exact ih (List.mem_of_ne_of_mem (by simp) h1) (List.mem_of_ne_of_mem (by simp) h2)
    | Minus =>
      exact ih (List.mem_of_ne_of_mem (by simp) h1) (List.mem_of_ne_of_mem (by simp) h2)
    | Multiply =>
      exact ih (List.mem_of_ne_of_mem (by simp) h1) (List.mem_of_ne_of_mem (by simp) h2)
    | Divide =>
      exact ih (List.mem_of_ne_of_mem (by simp) h1) (List.mem_of_ne_of_mem (by simp) h2)
    | LeftParenthesis =>
      exact ih (List.mem_of_ne_of_mem (by simp) h1) (List.mem_of_ne_of_mem (by simp) h2)
    | RightParenthesis =>
      exact ih (List.mem_of_ne_of_mem (by simp) h1) (List.mem_of_ne_of_mem (by simp) h2)
    | Equal =>
      exact ih (List.mem_of_ne_of_mem (by simp) h1) (List.mem_of_ne_of_mem (by simp) h2)

/-- Claim C9: an input whose token sequence contains `Variable` tokens with at
least two distinct names fails with `MultipleVariables`, regardless of any
other content of the sequence — the check is a single pass over all tokens
run before parsing, evaluation, or equation solving, so the error is produced
on every downstream path. -/
theorem claim_c9 (tokens : List Token) (n1 n2 : String) (hne : n1 ≠ n2)
    (h1 : Token.Variable n1 ∈ tokens) (h2 : Token.Variable n2 ∈ tokens) :
    process_expression tokens = Except.error CalculatorError.MultipleVariables := by
  have hscan := scanVariables_none_conflict tokens n1 n2 hne h1 h2
  have hne' : tokens.isEmpty = false := by
    cases tokens with
    | nil => simp at h1
    | cons t rest => rfl
  simp only [process_expression, hne', Bool.false_eq_true, if_false, hscan]

/-- Witness for C9: `x + y` (two distinct variable names) fails with
`MultipleVariables`; the same tokens also show the pre-parse nature of the
check, since the sequence would go down the infix path otherwise. -/
theorem claim_c9_witness :
    process_expression [Token.Variable "x", Token.Plus, Token.Variable "y"]
      = Except.error CalculatorError.MultipleVariables :=
  claim_c9 [Token.Variable "x", Token.Plus, Token.Variable "y"] "x" "y"
    (by simp) (by simp) (by simp)

/-- The triggering condition of claim C7, stated over the token sequence
itself: some operator token is immediately preceded by a `Number` token, and
counting `Number` tokens and operator tokens up to and including that
operator, `numbers_seen - operators_seen = 1`. -/
def postfixTriggerSpec (tokens : List Token) : Prop :=
  ∃ pre n op post, tokens = pre ++ Token.Number n :: op :: post ∧
    isArithmeticOperator op = true ∧
    ((List.countP isNumberToken (pre ++ [Token.Number n]) : ℤ)
      - (List.countP isArithmeticOperator (pre ++ [Token.Number n, op]) : ℤ) = 1)

/-- A token satisfies `isNumberToken` exactly when it is a `Number`. -/
lemma isNumberToken_iff (t : Token) : isNumberToken t = true ↔ ∃ v, t = Token.Number v := by
  cases t <;> simp [isNumberToken]

@[simp] lemma isNumberToken_number (v : ℚ) : isNumberToken (Token.Number v) = true := rfl

@[simp] lemma isArithmeticOperator_number (v : ℚ) :
    isArithmeticOperator (Token.Number v) = false := rfl

/-- Characterization of the `is_postfix_expression` scan loop, generalized
over the accumulated state: the scan returns `true` exactly when either the
sequence starts with an operator that fires against the incoming state, or
some later operator, immediately preceded by a `Number`, fires against the
accumulated counts. -/
lemma postfixScan_true_iff (ts : List Token) :
    ∀ (last : Bool) (nc oc : ℤ), postfixScan ts last nc oc = true ↔
      ((∃ op post, ts = op :: post ∧ isArithmeticOperator op = true ∧ last = true ∧
          nc - (oc + 1) = 1) ∨
       (∃ pre n op post, ts = pre ++ Token.Number n :: op :: post ∧
          isArithmeticOperator op = true ∧
          nc + (List.countP isNumberToken (pre ++ [Token.Number n]) : ℤ)
            - (oc + (List.countP isArithmeticOperator (pre ++ [Token.Number n, op]) : ℤ))
            = 1)) := by
  induction ts with
  | nil =>
    intro last nc oc
    simp [postfixScan]
  | cons t rest ih =>
    intro last nc oc
    cases hN : isNumberToken t with
    | true =>
      obtain ⟨m, rfl⟩ := (isNumberToken_iff t).mp hN
      rw [show postfixScan (Token.Number m :: rest) last nc oc
            = postfixScan rest true (nc + 1) oc from by simp [postfixScan, isNumberToken]]
      rw [ih true (nc + 1) oc]
      constructor
      · rintro (⟨op, post, hrest, hop, -, hcount⟩ | ⟨pre, n, op, post, hrest, hop, hcount⟩)
        · right
          refine ⟨[], m, op, post, by simp [hrest], hop, ?_⟩
          simp [List.countP_cons, hop]
          omega
        · right
          refine ⟨Token.Number m :: pre, n, op, post, by simp [hrest], hop, ?_⟩
          simp only [List.cons_append, List.countP_cons, isNumberToken_number,
            isArithmeticOperator_number] at hcount ⊢
          simp at hcount ⊢
          omega
      · rintro (⟨op, post, heq, hop, -, -⟩ | ⟨pre, n, op, post, heq, hop, hcount⟩)
        · rw [List.cons.injEq] at heq
          obtain ⟨rfl, -⟩ := heq
          simp at hop
        · cases pre with
          | nil =>
            simp only [List.nil_append, List.cons.injEq] at heq
            obtain ⟨hmn, hrest⟩ := heq
            obtain rfl : m = n := by injection hmn
            left
            refine ⟨op, post, hrest, hop, rfl, ?_⟩
            simp [List.countP_cons, hop] at hcount
            omega
          | cons p pre' =>
            simp only [List.cons_append, List.cons.injEq] at heq
            obtain ⟨rfl, hrest⟩ := heq
            right
            refine ⟨pre', n, op, post, hrest, hop, ?_⟩
            simp only [List.cons_append, List.countP_cons, isNumberToken_number,
              isArithmeticOperator_number] at hcount ⊢
            simp at hcount ⊢
            omega
    | false =>
      cases hO : isArithmeticOperator t with
      | true =>
        rw [show postfixScan (t :: rest) last nc oc
              = (if last = true ∧ nc - (oc + 1) = 1 then true
                 else postfixScan rest false nc (oc + 1)) from by
            simp [postfixScan, hN, hO]]
        by_cases hcond : last = true ∧ nc - (oc + 1) = 1
        · rw [if_pos hcond]
          simp only [true_iff]
          exact Or.inl ⟨t, rest, rfl, hO, hcond.1, hcond.2⟩
        · rw [if_neg hcond, ih false nc (oc + 1)]
          constructor
          · rintro (⟨-, -, -, -, hfalse, -⟩ | ⟨pre, n, op, post, hrest, hop, hcount⟩)
            · exact absurd hfalse (by simp)
            · right
              refine ⟨t :: pre, n, op, post, by simp [hrest], hop, ?_⟩
              simp only [List.cons_append, List.countP_cons, hN, hO] at hcount ⊢
              simp at hcount ⊢
              omega
          · rintro (⟨op, post, heq, hop, hlast, hcnt⟩ | ⟨pre, n, op, post, heq, hop, hcount⟩)
            · rw [List.cons.injEq] at heq
              obtain ⟨rfl, -⟩ := heq
              exact absurd ⟨hlast, hcnt⟩ hcond
            · cases pre with
              | nil =>
                simp only [List.nil_append, List.cons.injEq] at heq
                obtain ⟨rfl, -⟩ := heq
                simp [isNumberToken] at hN
              | cons p pre' =>
                simp only [List.cons_append, List.cons.injEq] at heq
                obtain ⟨rfl, hrest⟩ := heq
                right
                refine ⟨pre', n, op, post, hrest, hop, ?_⟩
                simp only [List.cons_append, List.countP_cons, hN, hO] at hcount ⊢
                simp at hcount ⊢
                omega
      | false =>
        rw [show postfixScan (t :: rest) last nc oc
              = postfixScan rest false nc oc from by simp [postfixScan, hN, hO]]
        rw [ih false nc oc]
        constructor
        · rintro (⟨-, -, -, -, hfalse, -⟩ | ⟨pre, n, op, post, hrest, hop, hcount⟩)
          · exact absurd hfalse (by simp)
          · right
            refine ⟨t :: pre, n, op, post, by simp [hrest], hop, ?_⟩
            simp only [List.cons_append, List.countP_cons, hN, hO] at hcount ⊢
            simp at hcount ⊢
            omega
        · rintro (⟨op, post, heq, hop, -, -⟩ | ⟨pre, n, op, post, heq, hop, hcount⟩)
          · rw [List.cons.injEq] at heq
            obtain ⟨rfl, -⟩ := heq
            simp [hO] at hop
          · cases pre with
            | nil =>
              simp only [List.nil_append, List.cons.injEq] at heq
              obtain ⟨rfl, -⟩ := heq
              simp [isNumberToken] at hN
            | cons p pre' =>
              simp only [List.cons_append, List.cons.injEq] at heq
              obtain ⟨rfl, hrest⟩ := heq
              right
              refine ⟨pre', n, op, post, hrest, hop, ?_⟩
              simp only [List.cons_append, List.countP_cons, hN, hO] at hcount ⊢
              simp at hcount ⊢
              omega

/-- Claim C7: `is_postfix_expression` returns `false` whenever a
`LeftParenthesis`, `RightParenthesis`, or `Equal` token is present; otherwise
it returns `true` exactly when, immediately after consuming some operator
whose preceding token is a `Number`, the running tally satisfies
`numbers_seen - operators_seen = 1`, and `false` when the scan ends without
that condition occurring. -/
theorem claim_c7 (tokens : List Token) :
    is_postfix_expression tokens = true ↔
      (containsParenthesisOrEqual tokens = false ∧ postfixTriggerSpec tokens) := by
  unfold is_postfix_expression
  cases hc : containsParenthesisOrEqual tokens with
  | true => simp
  | false =>
    rw [if_neg (by simp)]
    rw [postfixScan_true_iff tokens false 0 0]
    simp only [eq_self_iff_true, true_and]
    constructor
    · rintro (⟨-, -, -, -, hfalse, -⟩ | ⟨pre, n, op, post, heq, hop, hcount⟩)
      · exact absurd hfalse (by simp)
      · exact ⟨pre, n, op, post, heq, hop, by omega⟩
    · rintro ⟨pre, n, op, post, heq, hop, hcount⟩
      right
      exact ⟨pre, n, op, post, heq, hop, by omega⟩

end RustCalculator
